import Mathlib

/-!
# Lilipod container lifecycle core — verified embedding

A shallow embedding of the container-lifecycle core of lilipod
(`pkg/containerutils`, `pkg/netns`), written definition-for-definition from
the Go source.  Machine words are modelled as `Nat` reduced mod `2^32` where
the source works on 32-bit values; filesystem and process effects are modelled
as explicit state passing; fallible operations return `Except` or carry
success flags.  Theorems at the end settle the specification claims.
-/

/-! ## MD5 (Go `crypto/md5`, RFC 1321)

`GetID` in `pkg/containerutils/container_utils.go` hashes the container name
with Go's `crypto/md5` and prints the 16-byte digest as lowercase hex.  The
standard MD5 algorithm is embedded here on `Nat` bytes/words, little-endian,
with arithmetic mod `2^32`. -/

/-- `2^32`, the 32-bit word modulus. -/
def M32 : Nat := 4294967296

/-- Bitwise complement on a 32-bit word represented as `Nat`. -/
def not32 (x : Nat) : Nat := Nat.xor x (M32 - 1)

/-- Left-rotate a 32-bit word by `s` places (`0 ≤ s < 32`). -/
def rotl32 (x s : Nat) : Nat :=
  ((x <<< s) % M32) ||| (x >>> (32 - s))

/-- The 64 MD5 sine-derived round constants `K[i]` of RFC 1321. -/
def md5K : List Nat :=
  [0xd76aa478, 0xe8c7b756, 0x242070db, 0xc1bdceee,
   0xf57c0faf, 0x4787c62a, 0xa8304613, 0xfd469501,
   0x698098d8, 0x8b44f7af, 0xffff5bb1, 0x895cd7be,
   0x6b901122, 0xfd987193, 0xa679438e, 0x49b40821,
   0xf61e2562, 0xc040b340, 0x265e5a51, 0xe9b6c7aa,
   0xd62f105d, 0x02441453, 0xd8a1e681, 0xe7d3fbc8,
   0x21e1cde6, 0xc33707d6, 0xf4d50d87, 0x455a14ed,
   0xa9e3e905, 0xfcefa3f8, 0x676f02d9, 0x8d2a4c8a,
   0xfffa3942, 0x8771f681, 0x6d9d6122, 0xfde5380c,
   0xa4beea44, 0x4bdecfa9, 0xf6bb4b60, 0xbebfbc70,
   0x289b7ec6, 0xeaa127fa, 0xd4ef3085, 0x04881d05,
   0xd9d4d039, 0xe6db99e5, 0x1fa27cf8, 0xc4ac5665,
   0xf4292244, 0x432aff97, 0xab9423a7, 0xfc93a039,
   0x655b59c3, 0x8f0ccc92, 0xffeff47d, 0x85845dd1,
   0x6fa87e4f, 0xfe2ce6e0, 0xa3014314, 0x4e0811a1,
   0xf7537e82, 0xbd3af235, 0x2ad7d2bb, 0xeb86d391]

/-- The 64 MD5 per-round left-rotation amounts `s[i]` of RFC 1321. -/
def md5S : List Nat :=
  [7, 12, 17, 22, 7, 12, 17, 22, 7, 12, 17, 22, 7, 12, 17, 22,
   5, 9, 14, 20, 5, 9, 14, 20, 5, 9, 14, 20, 5, 9, 14, 20,
   4, 11, 16, 23, 4, 11, 16, 23, 4, 11, 16, 23, 4, 11, 16, 23,
   6, 10, 15, 21, 6, 10, 15, 21, 6, 10, 15, 21, 6, 10, 15, 21]

/-- The MD5 nonlinear mixing function for round `i`. -/
def md5F (i b c d : Nat) : Nat :=
  if i < 16 then (b &&& c) ||| (not32 b &&& d)
  else if i < 32 then (d &&& b) ||| (not32 d &&& c)
  else if i < 48 then Nat.xor (Nat.xor b c) d
  else Nat.xor c (b ||| not32 d)

/-- The MD5 message-word index for round `i`. -/
def md5G (i : Nat) : Nat :=
  if i < 16 then i
  else if i < 32 then (5 * i + 1) % 16
  else if i < 48 then (3 * i + 5) % 16
  else (7 * i) % 16

/-- One MD5 round, transforming the `(a, b, c, d)` state with message words
`m` at round index `i`. -/
def md5Round (m : List Nat) (st : Nat × Nat × Nat × Nat) (i : Nat) :
    Nat × Nat × Nat × Nat :=
  let (a, b, c, d) := st
  let f := (md5F i b c d + a + md5K.getD i 0 + m.getD (md5G i) 0) % M32
  (d, (b + rotl32 f (md5S.getD i 0)) % M32, b, c)

/-- Process one 512-bit chunk (as 16 little-endian words `m`): run the 64
rounds and add the result into the running state mod `2^32`. -/
def md5Chunk (st : Nat × Nat × Nat × Nat) (m : List Nat) :
    Nat × Nat × Nat × Nat :=
  let (a0, b0, c0, d0) := st
  let (a, b, c, d) := (List.range 64).foldl (md5Round m) st
  ((a0 + a) % M32, (b0 + b) % M32, (c0 + c) % M32, (d0 + d) % M32)

/-- The `k` little-endian bytes of `n`. -/
def leNat (k n : Nat) : List Nat :=
  match k with
  | 0 => []
  | k + 1 => n % 256 :: leNat k (n / 256)

/-- A little-endian word from a byte list. -/
def leWord (bs : List Nat) : Nat :=
  bs.foldr (fun b acc => b + 256 * acc) 0

/-- MD5 padding: append `0x80`, zero-fill to 56 mod 64, then the bit length
as 8 little-endian bytes. -/
def md5Pad (msg : List Nat) : List Nat :=
  let L := msg.length
  let z := (120 - (L + 1) % 64) % 64
  msg ++ [0x80] ++ List.replicate z 0 ++ leNat 8 (8 * L)

/-- Split a byte list into 64-byte chunks, structurally recursive on a fuel
bound (any fuel at least the list length gives the full chunk list). -/
def chunks64Go (fuel : Nat) (l : List Nat) : List (List Nat) :=
  match fuel, l with
  | _, [] => []
  | 0, _ => []
  | f + 1, x :: xs => (x :: xs).take 64 :: chunks64Go f ((x :: xs).drop 64)

/-- Split a byte list into 64-byte chunks. -/
def chunks64 (l : List Nat) : List (List Nat) :=
  chunks64Go l.length l

/-- The 16 little-endian 32-bit words of one 64-byte chunk. -/
def words16 (chunk : List Nat) : List Nat :=
  (List.range 16).map fun i => leWord ((chunk.drop (4 * i)).take 4)

/-- MD5 digest of a byte message: 16 bytes. -/
def md5Bytes (msg : List Nat) : List Nat :=
  let st :=
    (chunks64 (md5Pad msg)).foldl (fun st ch => md5Chunk st (words16 ch))
      (0x67452301, 0xefcdab89, 0x98badcfe, 0x10325476)
  leNat 4 st.1 ++ leNat 4 st.2.1 ++ leNat 4 st.2.2.1 ++ leNat 4 st.2.2.2

/-- The sixteen lowercase hex digits, in value order: codepoints 48-57 are
the decimal digits, 97-102 the letters `a`-`f`. -/
def hexChars : List Char :=
  (List.range 16).map fun n => Char.ofNat (if n < 10 then 48 + n else 87 + n)

/-- Two lowercase hex characters for one byte (Go `fmt` verb `%x`). -/
def byteHex (b : Nat) : List Char :=
  [hexChars.getD (b / 16 % 16) '0', hexChars.getD (b % 16) '0']

/-- Lowercase-hex rendering of a byte list. -/
def bytesHex (bs : List Nat) : String :=
  String.mk (bs.foldr (fun b acc => byteHex b ++ acc) [])

/-- UTF-8 bytes of one character (what Go `io.WriteString` feeds the
hasher). -/
def charUTF8 (c : Char) : List Nat :=
  let n := c.toNat
  if n < 0x80 then [n]
  else if n < 0x800 then [0xC0 + n / 64, 0x80 + n % 64]
  else if n < 0x10000 then [0xE0 + n / 4096, 0x80 + n / 64 % 64, 0x80 + n % 64]
  else [0xF0 + n / 262144, 0x80 + n / 4096 % 64, 0x80 + n / 64 % 64,
        0x80 + n % 64]

/-- UTF-8 bytes of a string. -/
def strBytes (s : String) : List Nat :=
  s.data.foldr (fun c acc => charUTF8 c ++ acc) []

/-- `md5.New` + `io.WriteString` + `fmt.Sprintf` as in `GetID`:
hex digest of the UTF-8 bytes of `s`. -/
def md5Hex (s : String) : String :=
  bytesHex (md5Bytes (strBytes s))

/-! ## Identity (C1): `GetID`, `container_utils.go` lines 57-70

The on-disk world enters as an oracle `dirExists : String → Bool` telling
whether `<ContainerDir>/<name>` exists.  The Go hashing branch returns `""`
only when `io.WriteString` to the hasher fails, which an in-memory MD5 hasher
never does, so that branch is not reachable and is not modelled. -/

/-- `GetID`: a name that is already a container-directory name is returned
verbatim; otherwise its MD5 hex digest is the ID. -/
def GetID (dirExists : String → Bool) (name : String) : String :=
  if dirExists name then name else md5Hex name

/-! ## The container record (`utils.Config`, spec section 3)

The persisted per-container record; `status` and `size` are derived fields
filled in on inspection. -/

/-- The container configuration record. -/
structure Config where
  id : String
  names : String
  created : String
  hostname : String
  image : String
  entrypoint : List String
  env : List String
  workdir : String
  user : String
  labels : List String
  uidmap : String
  gidmap : String
  userns : String
  ipc : String
  pid : String
  cgroup : String
  network : String
  status : String
  size : String
deriving DecidableEq

/-- A record with every field empty, used as the base for concrete inputs. -/
def baseConfig : Config :=
  ⟨"", "", "", "", "", [], [], "", "", [], "", "", "", "", "", "", "", "", ""⟩

/-- Modelled from the spec: `constants.KeepID` lives in `pkg/constants`,
which is not under `src/`; section 6 fixes the isolation-mode enum strings
`private`, `host`, `keep-id`. -/
def KeepID : String := "keep-id"

/-- Modelled from the spec: `constants.Private` (see `KeepID`). -/
def Private : String := "private"

/-! ## Filtering: `filterContainer`, `container_utils.go` lines 458-501 -/

/-- Split a character list at every occurrence of `sep`
(Go `strings.Split` with a one-character separator). -/
def splitOnChar (sep : Char) : List Char → List (List Char)
  | [] => [[]]
  | c :: rest =>
    match splitOnChar sep rest with
    | [] => [[]]
    | h :: t => if c = sep then [] :: h :: t else (c :: h) :: t

/-- Modelled from the spec: `constants.FilterSeparator` lives in
`pkg/constants`, which is not under `src/`; the spec says label filters are
"compared per-entry against the filter's separator-split list", with the
comma as the conventional list separator. -/
def FilterSeparator : Char := ','

/-- The separator-split entries of a label filter value. -/
def splitLabels (s : String) : List String :=
  (splitOnChar FilterSeparator s.data).map String.mk

/-- The `label` case of the filter loop: one increment of `matched` per equal
pair of a record label and a split filter entry (two nested `for` loops). -/
def labelHits (labels : List String) (filter : String) : Nat :=
  (labels.map fun cl =>
    ((splitLabels filter).filter fun fl => decide (cl = fl)).length).sum

/-- How many times one `(key, value)` filter entry increments `matched`:
`label` counts every matching pair; `status`, `name`, `id` count an exact
equality once; an unknown key only logs a warning and counts nothing. -/
def filterHit (cfg : Config) (key value : String) : Nat :=
  if key = "label" then labelHits cfg.labels value
  else if key = "status" then if cfg.status = value then 1 else 0
  else if key = "name" then if cfg.names = value then 1 else 0
  else if key = "id" then if cfg.id = value then 1 else 0
  else 0

/-- `filterContainer`: true when no filter is supplied, otherwise compares
the accumulated `matched` count against the number of supplied filters.
(Go iterates the map in arbitrary order; only the total count is used, which
is order-independent, so the map is modelled as an entry list.) -/
def filterContainer (cfg : Config) (filters : List (String × String)) : Bool :=
  if filters.length = 0 then true
  else decide (filters.length ≤ (filters.map fun p => filterHit cfg p.1 p.2).sum)

/-- The specification claim's reading of filtering, stated in its words: the
container matches iff every supplied filter finds at least one match inside
the record, with unknown keys being warnings that do not affect matching. -/
def matchesEveryFilter (cfg : Config) (filters : List (String × String)) : Bool :=
  filters.all fun p =>
    if p.1 = "label" ∨ p.1 = "status" ∨ p.1 = "name" ∨ p.1 = "id"
    then decide (1 ≤ filterHit cfg p.1 p.2)
    else true

/-! ## Stop: `container_utils.go` lines 352-392

`Stop` resolves the PID, sends SIGKILL immediately under `force`, otherwise
sends one SIGTERM and polls `GetPid` once per second until the PID stops
resolving or the timeout reaches zero, when it sends one SIGKILL.

The process table enters as an oracle `g : Nat → Int × Bool`: `g i` is the
result of the `i`-th call to `GetPid` (the value and whether it returned
without error; the Go function pairs every error with value `-1`, and the
loop reads only the value).  Signal delivery to a resolved PID is modelled as
succeeding, except that the initial SIGTERM's outcome is the explicit
parameter `termOk` because its failure aborts `Stop`. -/

/-- An observable action of `Stop`: a delivered signal or a one-second
sleep. -/
inductive StopEvent
  | sigterm (pid : Int)
  | sigkill (pid : Int)
  | sleep
deriving DecidableEq

/-- The `for` loop of `Stop`, rendered on fuel `n`: the loop body runs with
`timeout = n, n-1, …`; at fuel `0` the guard `timeout <= 0` fires and SIGKILL
goes to the most recently read PID.  `k` indexes the next `GetPid` call. -/
def stopLoopFuel (g : Nat → Int × Bool) (curPid : Int) (k : Nat) :
    Nat → List StopEvent
  | 0 => [StopEvent.sigkill curPid]
  | n + 1 =>
    let p := (g k).1
    if p < 1 then [StopEvent.sleep]
    else StopEvent.sleep :: stopLoopFuel g p (k + 1) n

/-- The `for` loop of `Stop` with its Go `int` timeout: a non-positive
timeout kills on entry (`timeout <= 0` guard), and otherwise each iteration
decrements it, which is exactly the fuel recursion at `timeout.toNat`. -/
def stopLoop (g : Nat → Int × Bool) (curPid : Int) (k : Nat) (t : Int) :
    List StopEvent :=
  stopLoopFuel g curPid k t.toNat

/-- `Stop`: the ordered signal/sleep trace and whether it returned without
error. -/
def Stop (g : Nat → Int × Bool) (force : Bool) (timeout : Int)
    (termOk : Bool) : List StopEvent × Bool :=
  let r0 := g 0
  if r0.2 = false then ([], false)
  else if force then ([StopEvent.sigkill r0.1], true)
  else if termOk = false then ([StopEvent.sigterm r0.1], false)
  else (StopEvent.sigterm r0.1 :: stopLoop g r0.1 1 timeout, true)

/-- Whether an event is a SIGTERM delivery. -/
def isTermEvent : StopEvent → Bool
  | StopEvent.sigterm _ => true
  | _ => false

/-- Whether an event is a SIGKILL delivery. -/
def isKillEvent : StopEvent → Bool
  | StopEvent.sigkill _ => true
  | _ => false

/-- Number of SIGTERMs in a trace. -/
def countTerm (es : List StopEvent) : Nat := (es.filter isTermEvent).length

/-- Number of SIGKILLs in a trace. -/
def countKill (es : List StopEvent) : Nat := (es.filter isKillEvent).length

/-! ## Network namespace cleanup: `pkg/netns/netns.go` lines 118-162

`Cleanup` is a straight-line best-effort sequence over the runtime
directory, the pinned mount, the API socket and the slirp child.  The
relevant world state is six booleans; each step's Linux success condition is
written next to it. -/

/-- The state `Cleanup` acts on: the bind mount, the three filesystem
entries, and the slirp process (whether `n.slirpProcess` is non-nil, and
whether that process is still alive). -/
structure NetnsState where
  mounted : Bool
  netnsFile : Bool
  sockFile : Bool
  runtimeDir : Bool
  slirpHandle : Bool
  slirpAlive : Bool
deriving DecidableEq

/-- The steps `Cleanup` attempts, in source order. -/
inductive CleanupStep
  | slirpStop
  | unmountNs
  | rmMountFile
  | rmSock
  | rmRuntimeDir
deriving DecidableEq

/-- The partial errors `Cleanup` can collect into its aggregate result. -/
inductive CleanupErr
  | slirpTerm
  | slirpKill
  | unmountFail
  | rmFileFail
  | rmDirFail
deriving DecidableEq

/-- `Cleanup`: final state, collected errors (in append order), and the
steps attempted.  Step semantics: signalling a dead process fails (and the
follow-up kill then fails too); `umount2` fails with EINVAL when nothing is
mounted; `os.Remove` of a missing file fails; removing a missing API socket
is explicitly ignored via `os.IsNotExist`; `os.RemoveAll` removes the
directory and its contents and reports no error when it is absent. -/
def Cleanup (s : NetnsState) : NetnsState × List CleanupErr × List CleanupStep :=
  let (s1, e1, t1) :=
    if s.slirpHandle then
      if s.slirpAlive then
        ({ s with slirpAlive := false }, ([] : List CleanupErr),
         [CleanupStep.slirpStop])
      else (s, [CleanupErr.slirpTerm, CleanupErr.slirpKill],
            [CleanupStep.slirpStop])
    else (s, [], [])
  let (s2, e2) :=
    if s1.mounted then ({ s1 with mounted := false }, ([] : List CleanupErr))
    else (s1, [CleanupErr.unmountFail])
  let (s3, e3) :=
    if s2.netnsFile then ({ s2 with netnsFile := false }, ([] : List CleanupErr))
    else (s2, [CleanupErr.rmFileFail])
  let s4 := { s3 with sockFile := false }
  let s5 := { s4 with runtimeDir := false, netnsFile := false, sockFile := false }
  (s5, e1 ++ e2 ++ e3,
   t1 ++ [CleanupStep.unmountNs, CleanupStep.rmMountFile, CleanupStep.rmSock,
          CleanupStep.rmRuntimeDir])

/-! ## The enter command: `generateEnterCommand`, `src/unnamed/part_000`
lines 41-143

The function builds the re-exec child command, accumulates clone flags in
the local `cloneFlags`, issues one `unshare` syscall in the parent, and — for
a private network — sets up a network namespace and starts slirp4netns with
`os.Getpid()`, all before the command is returned (and hence before the
child is spawned by `Start`).  External outcomes enter as parameters:
`rootful` is whether the `ROOTFUL` environment override equals the truth
string; `netnsOk` and `slirpOk` are the outcomes of `setupNetworking` and
`ns.StartSlirp`. -/

/-- Clone flag `CLONE_NEWNS` (new mount namespace). -/
def CLONE_NEWNS : Nat := 0x00020000

/-- Clone flag `CLONE_NEWUTS`. -/
def CLONE_NEWUTS : Nat := 0x04000000

/-- Clone flag `CLONE_NEWIPC`. -/
def CLONE_NEWIPC : Nat := 0x08000000

/-- Clone flag `CLONE_NEWUSER`. -/
def CLONE_NEWUSER : Nat := 0x10000000

/-- Clone flag `CLONE_NEWPID`. -/
def CLONE_NEWPID : Nat := 0x20000000

/-- Clone flag `CLONE_NEWNET`. -/
def CLONE_NEWNET : Nat := 0x40000000

/-- Clone flag `CLONE_NEWCGROUP`. -/
def CLONE_NEWCGROUP : Nat := 0x02000000

/-- The `syscall.SysProcAttr` the child command is given. -/
structure SysProcAttr where
  setsid : Bool
  setpgid : Bool
  foreground : Bool
  credUid : Nat
  credGid : Nat
deriving DecidableEq

/-- An observable action of the launch path, in program order. -/
inductive LaunchEvent
  | unshare (flags : Nat)
  | netnsSetup (id : String)
  | startSlirp (targetPid : Nat)
  | spawnChild
  | queryPid (id : String)
deriving DecidableEq

/-- The result of `generateEnterCommand`: the actions it performed, the
process attributes attached to the child command, the flag word passed to
the `unshare` syscall, the final accumulated value of the `cloneFlags`
variable, and the keep-id UID/GID map specs arranged for the child (with the
`1000:100000:65536` default), if any. -/
structure EnterCmd where
  events : List LaunchEvent
  attr : SysProcAttr
  unshareFlags : Nat
  cloneFlags : Nat
  keepIDMaps : Option (String × String)
deriving DecidableEq

/-- `generateEnterCommand`.  Source order: mount and UTS flags always; user
flag under keep-id without rootful; IPC flag; process attributes; the
`unshare` syscall with the flags accumulated so far; private-network setup
plus `StartSlirp(os.Getpid())`; only then the PID and cgroup flags; finally
the keep-id map arrangement.  (`json.Marshal` of a record cannot fail and is
not modelled; `SetProcessKeepIDMaps` lives in `pkg/procutils`, outside
`src/`, and is modelled as recording the map specs.) -/
def generateEnterCommand (cfg : Config) (rootful : Bool) (parentPid : Nat)
    (netnsOk slirpOk : Bool) : Except String EnterCmd :=
  let flags0 := CLONE_NEWNS ||| CLONE_NEWUTS
  let flags1 :=
    if cfg.userns = KeepID ∧ rootful = false then flags0 ||| CLONE_NEWUSER
    else flags0
  let flags2 := if cfg.ipc = Private then flags1 ||| CLONE_NEWIPC else flags1
  let attr : SysProcAttr := ⟨true, true, false, 0, 0⟩
  let ev0 := [LaunchEvent.unshare flags2]
  if cfg.network = Private ∧ netnsOk = false then
    Except.error "failed to set up network namespace"
  else if cfg.network = Private ∧ slirpOk = false then
    Except.error "failed to start slirp4netns"
  else
    let ev1 :=
      if cfg.network = Private then
        ev0 ++ [LaunchEvent.netnsSetup cfg.id, LaunchEvent.startSlirp parentPid]
      else ev0
    let flags3 := if cfg.pid = Private then flags2 ||| CLONE_NEWPID else flags2
    let flags4 :=
      if cfg.cgroup = Private then flags3 ||| CLONE_NEWCGROUP else flags3
    if cfg.userns = KeepID ∧ rootful = false then
      let uidMaps := if cfg.uidmap = "" then "1000:100000:65536" else cfg.uidmap
      let gidMaps := if cfg.gidmap = "" then "1000:100000:65536" else cfg.gidmap
      Except.ok ⟨ev1, attr, flags2, flags4, some (uidMaps, gidMaps)⟩
    else Except.ok ⟨ev1, attr, flags2, flags4, none⟩

/-! ## Start, launch portion: `pkg/containerutils/start.go` lines 64-120

After agent injection (modelled separately below), `Start` sets up its own
network namespace for a private network, builds the enter command, spawns
the child, and — for a private network — queries the child PID via `GetPid`
and starts slirp4netns on it.  `childPid` is the `GetPid` outcome after the
spawn; `slirp2Ok` is the outcome of the second `ns.StartSlirp`. -/

/-- The launch portion of `Start`: the ordered action trace, or the error it
returns. -/
def StartRun (cfg : Config) (rootful : Bool) (parentPid : Nat)
    (netnsOk slirpOk startNetnsOk : Bool) (childPid : Option Nat)
    (slirp2Ok : Bool) : Except String (List LaunchEvent) :=
  if cfg.network = Private ∧ startNetnsOk = false then
    Except.error "failed to set up network namespace"
  else
    let pre := if cfg.network = Private then [LaunchEvent.netnsSetup cfg.id] else []
    match generateEnterCommand cfg rootful parentPid netnsOk slirpOk with
    | Except.error e => Except.error e
    | Except.ok cmd =>
      let ev := pre ++ cmd.events ++ [LaunchEvent.spawnChild]
      if cfg.network = Private then
        match childPid with
        | none => Except.error "failed to get container PID"
        | some p =>
          if slirp2Ok = false then Except.error "failed to start slirp4netns"
          else Except.ok (ev ++ [LaunchEvent.queryPid cfg.id, LaunchEvent.startSlirp p])
      else Except.ok ev

/-! ## Start, agent injection: `pkg/containerutils/start.go` lines 24-62

A small path-keyed filesystem: newest entry wins on lookup.  `MkdirAll` is
modelled as creating the requested path as a directory (its missing parents
are not tracked individually); `WriteFile` needs the parent directory to
exist and fails on a directory target (EISDIR). -/

/-- A filesystem node: a regular file or a directory, with its mode. -/
inductive FNode
  | file (mode : Nat)
  | dir (mode : Nat)
deriving DecidableEq

/-- Look a path up in the association-list filesystem. -/
def fsLookup (fs : List (String × FNode)) (p : String) : Option FNode :=
  (fs.find? fun e => decide (e.1 = p)).map Prod.snd

/-- `fileutils.Exist`: the path names some node. -/
def fsExist (fs : List (String × FNode)) (p : String) : Bool :=
  (fsLookup fs p).isSome

/-- The directory part of a path (Go `filepath.Dir`, for slashed paths). -/
def pathDir (p : String) : String :=
  match (p.data.reverse.dropWhile fun c => decide (c ≠ '/')) with
  | [] => "."
  | _ :: rest => String.mk rest.reverse

/-- The last path element (Go `filepath.Base`, for slashed paths). -/
def pathBase (p : String) : String :=
  match ((splitOnChar '/' p.data).filter fun l => decide (l ≠ [])).getLast? with
  | some l => String.mk l
  | none => "/"

/-- Go `filepath.Join` of a clean prefix with one more component (which may
carry a leading slash that cleaning collapses). -/
def pathJoin (a b : String) : String :=
  match b.data.dropWhile fun c => decide (c = '/') with
  | [] => a
  | bs => String.mk (a.data ++ '/' :: bs)

/-- `os.MkdirAll`: succeeds when the path is already a directory, fails on a
file, creates the directory otherwise. -/
def mkdirAll (fs : List (String × FNode)) (p : String) (mode : Nat) :
    Option (List (String × FNode)) :=
  match fsLookup fs p with
  | some (FNode.dir _) => some fs
  | some (FNode.file _) => none
  | none => some ((p, FNode.dir mode) :: fs)

/-- `fileutils.WriteFile`: fails on a directory target or a missing parent
directory, otherwise creates the file. -/
def writeFile (fs : List (String × FNode)) (p : String) (mode : Nat) :
    Option (List (String × FNode)) :=
  match fsLookup fs p with
  | some (FNode.dir _) => none
  | _ =>
    match fsLookup fs (pathDir p) with
    | some (FNode.dir _) => some ((p, FNode.file mode) :: fs)
    | _ => none

/-- Modelled from the spec: `constants.PtyAgentPath` lives in
`pkg/constants`, which is not under `src/`; section 6 fixes the injected
agent location as a fixed path such as `/pty`. -/
def PtyAgentPath : String := "/pty"

/-- The agent-injection prefix of `Start`: read the agent from the bin dir
(`ptyBinOk`), and if it is absent at `rootfs/<agent-path>`, `MkdirAll` the
path `rootfs/<basename(agent-path)>` with mode `0o755`, write the agent at
`rootfs/<agent-path>` with mode `0o755`, then re-check existence and fail if
it still is not there.  Returns the filesystem as left behind and whether
this prefix succeeded. -/
def startInjectAgent (rootfs : String) (ptyBinOk : Bool)
    (fs : List (String × FNode)) : List (String × FNode) × Bool :=
  if ptyBinOk = false then (fs, false)
  else
    let target := pathJoin rootfs PtyAgentPath
    if fsExist fs target then (fs, true)
    else
      match mkdirAll fs (pathJoin rootfs (pathBase PtyAgentPath)) 0o755 with
      | none => (fs, false)
      | some fs1 =>
        match writeFile fs1 target 0o755 with
        | none => (fs1, false)
        | some fs2 => (fs2, fsExist fs2 target)

/-! ## Inspection: `GetContainerInfo` (lines 124-162) and `Inspect`
(lines 395-454) of `container_utils.go`

`utils.LoadConfig` is in `pkg/utils`, outside `src/`; per the spec it is
`load(path) → record | NotFound | CorruptConfig`, so its outcome enters as a
value of `Except LoadErr Config`.  Rendering (JSON / template) is abstracted
to the list of inspected IDs; what the claims concern — which errors surface
and which spawn an out-of-band CLI removal — is tracked explicitly. -/

/-- Modelled from the spec: the failure modes of `load` in section 4.2,
`NotFound | CorruptConfig`. -/
inductive LoadErr
  | notFound
  | corrupt
deriving DecidableEq

/-- What `GetContainerInfo` hands back: the record if one survived loading
and filtering, whether an error went to the caller, and the out-of-band CLI
commands spawned. -/
structure InfoResult where
  cfg : Option Config
  err : Bool
  cli : List String
deriving DecidableEq

/-- `GetContainerInfo`: a failed load spawns `<self> rm <container>` and
returns no record, with the removal's own outcome (`rmOk`) as the returned
error; a loaded record is dropped silently when it fails the filters,
otherwise `status` (from `IsRunning`) and optionally `size` (disk usage
`du`, outcome `duOk`) are stamped in. -/
def GetContainerInfo (container : String) (load : Except LoadErr Config)
    (rmOk running size : Bool) (du : String) (duOk : Bool)
    (filters : List (String × String)) : InfoResult :=
  match load with
  | Except.error _ => { cfg := none, err := !rmOk, cli := ["rm " ++ container] }
  | Except.ok config =>
    if filterContainer config filters = false then
      { cfg := none, err := false, cli := [] }
    else
      let state := if running then "running" else "stopped"
      let dsize := if size then du else ""
      if size ∧ duOk = false then { cfg := none, err := true, cli := [] }
      else
        { cfg := some { config with status := state, size := dsize },
          err := false, cli := [] }

/-- `Inspect` over its input names: resolves each via `GetID`, loads its
record, and returns the first load failure unchanged — spawning no CLI
command — or the list of inspected IDs. -/
def Inspect (dirExists : String → Bool)
    (loads : String → Except LoadErr Config) :
    List String → Except LoadErr (List String) × List String
  | [] => (Except.ok [], [])
  | c :: rest =>
    let id := GetID dirExists c
    match loads id with
    | Except.error e => (Except.error e, [])
    | Except.ok _ =>
      match Inspect dirExists loads rest with
      | (Except.error e, cli) => (Except.error e, cli)
      | (Except.ok l, cli) => (Except.ok (id :: l), cli)

/-! ## Shared concrete inputs -/

/-- A directory oracle under which no container directory exists. -/
def noDirs : String → Bool := fun _ => false

/-- A directory oracle under which every queried directory exists. -/
def allDirs : String → Bool := fun _ => true

/-- A record carrying the same label twice (Go label slices may repeat). -/
def cfgLabelsDup : Config :=
  { baseConfig with labels := ["a=1", "a=1"], names := "web" }

/-- A record whose only set field is the name. -/
def cfgNameWeb : Config := { baseConfig with names := "web" }

/-- A record with a name and an ID set. -/
def cfgNamedId : Config := { baseConfig with names := "web", id := "abc" }

/-- A record requesting private PID and cgroup namespaces only. -/
def cfgPidPriv : Config :=
  { baseConfig with pid := "private", cgroup := "private" }

/-- A record requesting a private network. -/
def cfgNetPriv : Config :=
  { baseConfig with network := "private", id := "abc123" }

/-! ## Helper lemmas: hex rendering of MD5 digests -/

/-- `leNat` always emits exactly `k` bytes. -/
theorem leNat_length (k : Nat) : ∀ n, (leNat k n).length = k := by
  induction k with
  | zero => intro n; rfl
  | succ k ih => intro n; simp [leNat, ih]

/-- An MD5 digest has 16 bytes. -/
theorem md5Bytes_length (msg : List Nat) : (md5Bytes msg).length = 16 := by
  simp [md5Bytes, leNat_length]

/-- The hex fold emits two characters per byte. -/
theorem hexFold_length (bs : List Nat) :
    (List.foldr (fun b acc => byteHex b ++ acc) [] bs).length = 2 * bs.length := by
  induction bs with
  | nil => rfl
  | cons b t ih =>
    rw [List.foldr_cons, List.length_append, ih]
    have hb : (byteHex b).length = 2 := rfl
    rw [hb, List.length_cons]
    omega

/-- `bytesHex` yields two characters per byte. -/
theorem bytesHex_length (bs : List Nat) :
    (bytesHex bs).length = 2 * bs.length := by
  show (List.foldr (fun b acc => byteHex b ++ acc) [] bs).length = 2 * bs.length
  exact hexFold_length bs

/-- An MD5 hex digest has 32 characters. -/
theorem md5Hex_length (s : String) : (md5Hex s).length = 32 := by
  show (bytesHex (md5Bytes (strBytes s))).length = 32
  rw [bytesHex_length, md5Bytes_length]

/-- Indexing `hexChars` at anything mod 16 lands inside `hexChars`. -/
theorem getD_hexChars_mem (i : Nat) : hexChars.getD (i % 16) '0' ∈ hexChars := by
  have h : i % 16 < hexChars.length := Nat.mod_lt _ (by decide)
  rw [List.getD_eq_getElem _ _ h]
  exact List.getElem_mem h

/-- Every character `byteHex` emits is a hex digit. -/
theorem byteHex_mem {c : Char} {b : Nat} (h : c ∈ byteHex b) : c ∈ hexChars := by
  have h' : c = hexChars.getD (b / 16 % 16) '0' ∨ c = hexChars.getD (b % 16) '0' := by
    simpa [byteHex] using h
  rcases h' with rfl | rfl
  · exact getD_hexChars_mem (b / 16)
  · exact getD_hexChars_mem b

/-- Every character the hex fold emits is a hex digit. -/
theorem hexFold_mem :
    ∀ (bs : List Nat) (c : Char),
      c ∈ List.foldr (fun b acc => byteHex b ++ acc) [] bs → c ∈ hexChars := by
  intro bs
  induction bs with
  | nil => intro c h; cases h
  | cons b t ih =>
    intro c h
    rcases List.mem_append.mp h with h | h
    · exact byteHex_mem h
    · exact ih c h

/-- Every character of an MD5 hex digest is a hex digit. -/
theorem md5Hex_mem (s : String) {c : Char} (h : c ∈ (md5Hex s).data) :
    c ∈ hexChars :=
  hexFold_mem (md5Bytes (strBytes s)) c h

set_option maxRecDepth 100000 in
/-- C6 counterexample: with no container directory on disk, `GetID` is not
idempotent — `GetID (GetID "web")` hashes the digest again. -/
theorem getID_not_idempotent_counterexample :
    GetID noDirs (GetID noDirs "web") ≠ GetID noDirs "web"
    ∧ GetID noDirs "web" = "2567a5ec9705eb7ac2c984033e06189d"
    ∧ GetID noDirs (GetID noDirs "web") =
        "1d7717db9be01565471ce860f71c9bb7" := by
  refine ⟨by decide, by decide, by decide⟩

/-- C6: `GetID` fixes any name whose directory exists, so it is idempotent
at every name whose resolved ID names an existing container directory (as a
materialized container's does); a name without a directory resolves to a
32-character lowercase-hex digest, and a name with one is returned
verbatim. -/
theorem getID_stability (fs : String → Bool) (N : String)
    (h : fs (GetID fs N) = true) :
    GetID fs (GetID fs N) = GetID fs N
    ∧ (fs N = false →
        (GetID fs N).length = 32 ∧ ∀ c ∈ (GetID fs N).data, c ∈ hexChars)
    ∧ (fs N = true → GetID fs N = N) := by
  refine ⟨?_, ?_, ?_⟩
  · show (if fs (GetID fs N) then GetID fs N else md5Hex (GetID fs N)) = GetID fs N
    rw [h]
    simp
  · intro hN
    show (GetID fs N).length = 32 ∧ ∀ c ∈ (GetID fs N).data, c ∈ hexChars
    unfold GetID
    rw [hN]
    simp only [Bool.false_eq_true, if_false]
    exact ⟨md5Hex_length N, fun c hc => md5Hex_mem N hc⟩
  · intro hN
    unfold GetID
    rw [hN]
    simp

/-- C6 witness: `getID_stability` at the all-directories oracle and `"web"`. -/
theorem getID_stability_witness :
    allDirs (GetID allDirs "web") = true
    ∧ (GetID allDirs (GetID allDirs "web") = GetID allDirs "web"
       ∧ (allDirs "web" = false →
           (GetID allDirs "web").length = 32
           ∧ ∀ c ∈ (GetID allDirs "web").data, c ∈ hexChars)
       ∧ (allDirs "web" = true → GetID allDirs "web" = "web")) :=
  ⟨rfl, getID_stability allDirs "web" rfl⟩

/-! ## Helper lemma: counting versus covering for filters -/

/-- For a list of naturals each at most 1, the sum reaches the length
exactly when every entry is at least 1. -/
theorem length_le_sum_iff (l : List Nat) (h : ∀ x ∈ l, x ≤ 1) :
    l.length ≤ l.sum ↔ ∀ x ∈ l, 1 ≤ x := by
  induction l with
  | nil => simp
  | cons a t ih =>
    have ha : a ≤ 1 := h a (List.mem_cons_self a t)
    have ht : ∀ x ∈ t, x ≤ 1 := fun x hx => h x (List.mem_cons_of_mem a hx)
    have hsum : t.sum ≤ t.length := by simpa using List.sum_le_card_nsmul t 1 ht
    have iht := ih ht
    simp only [List.length_cons, List.sum_cons, List.mem_cons]
    constructor
    · intro hle
      have h1 : t.length ≤ t.sum := by omega
      have h2 : 1 ≤ a := by omega
      intro x hx
      rcases hx with rfl | hx
      · exact h2
      · exact iht.mp h1 x hx
    · intro hall
      have h1 : ∀ x ∈ t, 1 ≤ x := fun x hx => hall x (Or.inr hx)
      have h2 := iht.mpr h1
      have h3 : 1 ≤ a := hall a (Or.inl rfl)
      omega

/-- C4 counterexample: with the label `a=1` stored twice, the filter map
`{label: a=1, name: nope}` — keys all recognized — matches the container
even though the `name` filter finds no match, because the two label hits
reach the total of two; and a map holding only an unknown key fails to match
although no recognized filter is unsatisfied. -/
theorem filterContainer_iff_counterexample :
    filterContainer cfgLabelsDup [("label", "a=1"), ("name", "nope")] = true
    ∧ matchesEveryFilter cfgLabelsDup [("label", "a=1"), ("name", "nope")] = false
    ∧ filterContainer baseConfig [("bogus", "x")] = false
    ∧ matchesEveryFilter baseConfig [("bogus", "x")] = true := by
  refine ⟨by decide, by decide, by decide, by decide⟩

/-- C4: when no single filter entry scores more than one hit, matching
coincides with the claim's reading — every supplied filter finds at least
one match (an unknown key, scoring zero, then prevents matching). -/
theorem filterContainer_iff_all_of_single_hits (cfg : Config)
    (filters : List (String × String))
    (h : ∀ p ∈ filters, filterHit cfg p.1 p.2 ≤ 1) :
    filterContainer cfg filters = true ↔
      ∀ p ∈ filters, 1 ≤ filterHit cfg p.1 p.2 := by
  unfold filterContainer
  rcases filters with _ | ⟨q, rest⟩
  · simp
  · rw [if_neg (by simp)]
    simp only [decide_eq_true_eq]
    have hmem : ∀ x ∈ (q :: rest).map (fun p => filterHit cfg p.1 p.2), x ≤ 1 := by
      intro x hx
      obtain ⟨p, hp, rfl⟩ := List.mem_map.mp hx
      exact h p hp
    have hiff := length_le_sum_iff _ hmem
    rw [List.length_map] at hiff
    rw [hiff]
    constructor
    · intro hall p hp
      exact hall _ (List.mem_map_of_mem _ hp)
    · intro hall x hx
      obtain ⟨p, hp, rfl⟩ := List.mem_map.mp hx
      exact hall p hp

/-- C4 witness: `filterContainer_iff_all_of_single_hits` at a name-only
filter map. -/
theorem filterContainer_iff_all_witness :
    (∀ p ∈ [("name", "web")], filterHit cfgNameWeb p.1 p.2 ≤ 1)
    ∧ (filterContainer cfgNameWeb [("name", "web")] = true ↔
        ∀ p ∈ [("name", "web")], 1 ≤ filterHit cfgNameWeb p.1 p.2) :=
  ⟨by decide, filterContainer_iff_all_of_single_hits cfgNameWeb
    [("name", "web")] (by decide)⟩

/-- C5 counterexample: the record with label `a=1` stored twice does not
match `{name: nope}`, yet adding the filter `label: a=1` makes it match —
adding a filter enlarged the matched set. -/
theorem filterContainer_monotone_counterexample :
    filterContainer cfgLabelsDup [("label", "a=1"), ("name", "nope")] = true
    ∧ filterContainer cfgLabelsDup [("name", "nope")] = false := by
  refine ⟨by decide, by decide⟩

/-- C5: adding a filter entry under a fresh key never increases the matched
set, provided the added entry scores at most one hit on the record (an entry
scoring `k` hits can newly match records short by up to `k - 1` hits). -/
theorem filterContainer_monotone_of_single_hit (cfg : Config)
    (f : String × String) (filters : List (String × String))
    (hone : filterHit cfg f.1 f.2 ≤ 1)
    (hnew : f.1 ∉ filters.map Prod.fst)
    (hmatch : filterContainer cfg (f :: filters) = true) :
    filterContainer cfg filters = true := by
  unfold filterContainer at hmatch ⊢
  rcases filters with _ | ⟨q, rest⟩
  · simp
  · rw [if_neg (by simp)] at hmatch ⊢
    simp only [decide_eq_true_eq, List.length_cons, List.map_cons,
      List.sum_cons] at hmatch ⊢
    omega

/-- C5 witness: `filterContainer_monotone_of_single_hit` adding the
matching filter `id: abc` (exactly one hit) to a name-only map the record
also matches — every hypothesis holds at this input, and the theorem yields
that the record still matches the smaller map. -/
theorem filterContainer_monotone_witness :
    filterHit cfgNamedId "id" "abc" ≤ 1
    ∧ ("id" ∉ ([("name", "web")].map Prod.fst))
    ∧ filterContainer cfgNamedId [("id", "abc"), ("name", "web")] = true
    ∧ filterContainer cfgNamedId [("name", "web")] = true :=
  ⟨by decide, by decide, by decide,
   filterContainer_monotone_of_single_hit cfgNamedId ("id", "abc")
     [("name", "web")] (by decide) (by decide) (by decide)⟩

/-! ## Helper lemmas: the stop polling loop -/

/-- The polling loop never sends SIGTERM. -/
theorem stopLoopFuel_countTerm (g : Nat → Int × Bool) :
    ∀ (n : Nat) (curPid : Int) (k : Nat),
      countTerm (stopLoopFuel g curPid k n) = 0 := by
  intro n
  induction n with
  | zero => intro curPid k; rfl
  | succ n ih =>
    intro curPid k
    simp only [stopLoopFuel]
    split
    · rfl
    · simpa [countTerm, List.filter_cons, isTermEvent] using ih ((g k).1) (k + 1)

/-- The polling loop sends at most one SIGKILL. -/
theorem stopLoopFuel_countKill_le (g : Nat → Int × Bool) :
    ∀ (n : Nat) (curPid : Int) (k : Nat),
      countKill (stopLoopFuel g curPid k n) ≤ 1 := by
  intro n
  induction n with
  | zero => intro curPid k; simp [stopLoopFuel, countKill, isKillEvent]
  | succ n ih =>
    intro curPid k
    simp only [stopLoopFuel]
    split
    · simp [countKill, isKillEvent]
    · simpa [countKill, List.filter_cons, isKillEvent] using ih ((g k).1) (k + 1)

/-- If every poll in the window resolves a live PID, the loop sleeps `n`
times and then SIGKILLs the PID read by the last poll. -/
theorem stopLoopFuel_all_alive (g : Nat → Int × Bool) :
    ∀ (n : Nat) (curPid : Int) (k : Nat), 1 ≤ n →
      (∀ j, k ≤ j → j < k + n → 1 ≤ (g j).1) →
      stopLoopFuel g curPid k n =
        List.replicate n StopEvent.sleep ++
          [StopEvent.sigkill ((g (k + n - 1)).1)] := by
  intro n
  induction n with
  | zero => intro curPid k hn _; exact absurd hn (by omega)
  | succ n ih =>
    intro curPid k _ h
    have hk : 1 ≤ (g k).1 := h k (Nat.le_refl k) (by omega)
    simp only [stopLoopFuel]
    rw [if_neg (by omega)]
    rcases Nat.eq_zero_or_pos n with h0 | hpos
    · subst h0
      simp [stopLoopFuel]
    · have harg : ∀ j, k + 1 ≤ j → j < k + 1 + n → 1 ≤ (g j).1 :=
        fun j h1 h2 => h j (by omega) (by omega)
      rw [ih ((g k).1) (k + 1) hpos harg]
      have e : k + 1 + n - 1 = k + (n + 1) - 1 := by omega
      rw [e]
      simp [List.replicate_succ]

/-- If some poll in the window fails to resolve a live PID, the loop exits
without SIGKILL. -/
theorem stopLoopFuel_gone (g : Nat → Int × Bool) :
    ∀ (n : Nat) (curPid : Int) (k : Nat),
      (∃ j, k ≤ j ∧ j < k + n ∧ (g j).1 < 1) →
      countKill (stopLoopFuel g curPid k n) = 0 := by
  intro n
  induction n with
  | zero =>
    intro curPid k h
    obtain ⟨j, h1, h2, _⟩ := h
    omega
  | succ n ih =>
    intro curPid k h
    simp only [stopLoopFuel]
    split
    · simp [countKill, isKillEvent]
    · rename_i hp
      have hrec : countKill (stopLoopFuel g ((g k).1) (k + 1) n) = 0 := by
        apply ih
        obtain ⟨j, h1, h2, h3⟩ := h
        have hjk : j ≠ k := by
          intro e
          subst e
          exact hp h3
        exact ⟨j, by omega, by omega, h3⟩
      simpa [countKill, List.filter_cons, isKillEvent] using hrec

/-- C3: stopping a running container without `force` and with timeout
`T ≥ 1` sends exactly one SIGTERM, then polls once per second; if some poll
within the window no longer resolves the PID (errors read as value `-1`
count as gone) no SIGKILL is ever sent and `Stop` succeeds, and if every
poll resolves a live PID the trace is exactly one SIGTERM, `T` sleeps, and
one SIGKILL to the PID read by the last poll. -/
theorem stop_sigterm_poll_sigkill (g : Nat → Int × Bool) (T : Int)
    (hT : 1 ≤ T) (h0 : (g 0).2 = true) :
    (Stop g false T true).2 = true
    ∧ countTerm (Stop g false T true).1 = 1
    ∧ countKill (Stop g false T true).1 ≤ 1
    ∧ ((∃ j : Nat, 1 ≤ j ∧ (j : Int) ≤ T ∧ (g j).1 < 1) →
        countKill (Stop g false T true).1 = 0)
    ∧ ((∀ j : Nat, 1 ≤ j → (j : Int) ≤ T → 1 ≤ (g j).1) →
        (Stop g false T true).1 =
          StopEvent.sigterm ((g 0).1) ::
            (List.replicate T.toNat StopEvent.sleep ++
              [StopEvent.sigkill ((g T.toNat).1)])) := by
  have hS : Stop g false T true =
      (StopEvent.sigterm ((g 0).1) :: stopLoop g ((g 0).1) 1 T, true) := by
    simp [Stop, h0]
  rw [hS]
  refine ⟨rfl, ?_, ?_, ?_, ?_⟩
  · have h1 := stopLoopFuel_countTerm g T.toNat ((g 0).1) 1
    simpa [countTerm, List.filter_cons, isTermEvent, stopLoop] using h1
  · have h1 := stopLoopFuel_countKill_le g T.toNat ((g 0).1) 1
    simpa [countKill, List.filter_cons, isKillEvent, stopLoop] using h1
  · intro hex
    obtain ⟨j, h1, h2, h3⟩ := hex
    have h4 := stopLoopFuel_gone g T.toNat ((g 0).1) 1 ⟨j, h1, by omega, h3⟩
    simpa [countKill, List.filter_cons, isKillEvent, stopLoop] using h4
  · intro hall
    have hn : 1 ≤ T.toNat := by omega
    have harg : ∀ j, 1 ≤ j → j < 1 + T.toNat → 1 ≤ (g j).1 :=
      fun j h1 h2 => hall j h1 (by omega)
    have h4 := stopLoopFuel_all_alive g T.toNat ((g 0).1) 1 hn harg
    have e : 1 + T.toNat - 1 = T.toNat := by omega
    rw [e] at h4
    simp only [stopLoop]
    rw [h4]

/-- The process-table oracle of a process that never exits: every `GetPid`
call resolves PID 7 without error. -/
def aliveOracle : Nat → Int × Bool := fun _ => (7, true)

/-- C3 witness: `stop_sigterm_poll_sigkill` at `timeout = 2` and a process
ignoring SIGTERM — after two one-second polls, one SIGKILL. -/
theorem stop_sigterm_poll_sigkill_witness :
    (1 : Int) ≤ 2
    ∧ (aliveOracle 0).2 = true
    ∧ ((Stop aliveOracle false 2 true).2 = true
       ∧ countTerm (Stop aliveOracle false 2 true).1 = 1
       ∧ countKill (Stop aliveOracle false 2 true).1 ≤ 1
       ∧ ((∃ j : Nat, 1 ≤ j ∧ (j : Int) ≤ 2 ∧ (aliveOracle j).1 < 1) →
           countKill (Stop aliveOracle false 2 true).1 = 0)
       ∧ ((∀ j : Nat, 1 ≤ j → (j : Int) ≤ 2 → 1 ≤ (aliveOracle j).1) →
           (Stop aliveOracle false 2 true).1 =
             StopEvent.sigterm ((aliveOracle 0).1) ::
               (List.replicate (2 : Int).toNat StopEvent.sleep ++
                 [StopEvent.sigkill ((aliveOracle (2 : Int).toNat).1)]))) :=
  ⟨by decide, rfl, stop_sigterm_poll_sigkill aliveOracle 2 (by decide) rfl⟩

/-! ## Claim theorems: cleanup, launch, injection, inspection -/

/-- C7: on every state, running `Cleanup` twice leaves exactly the state one
run leaves and attempts the same complete step sequence each time; every run
— whatever errors its steps hit — attempts the unmount, both removals and
the directory removal (plus slirp termination exactly when a handle is
held), leaves all four filesystem resources gone, and collects one error
per failing step (two for the failing slirp signal-then-kill) into the one
aggregate result. -/
theorem cleanup_idempotent_best_effort :
    ∀ (m nf sk rd hh sa : Bool),
      (Cleanup (Cleanup ⟨m, nf, sk, rd, hh, sa⟩).1).1 =
        (Cleanup ⟨m, nf, sk, rd, hh, sa⟩).1
      ∧ (Cleanup ⟨m, nf, sk, rd, hh, sa⟩).2.2 =
          (if hh then [CleanupStep.slirpStop] else []) ++
            [CleanupStep.unmountNs, CleanupStep.rmMountFile,
             CleanupStep.rmSock, CleanupStep.rmRuntimeDir]
      ∧ (Cleanup (Cleanup ⟨m, nf, sk, rd, hh, sa⟩).1).2.2 =
          (Cleanup ⟨m, nf, sk, rd, hh, sa⟩).2.2
      ∧ (Cleanup ⟨m, nf, sk, rd, hh, sa⟩).1.mounted = false
      ∧ (Cleanup ⟨m, nf, sk, rd, hh, sa⟩).1.netnsFile = false
      ∧ (Cleanup ⟨m, nf, sk, rd, hh, sa⟩).1.sockFile = false
      ∧ (Cleanup ⟨m, nf, sk, rd, hh, sa⟩).1.runtimeDir = false
      ∧ (Cleanup ⟨m, nf, sk, rd, hh, sa⟩).2.1.length =
          ((if hh ∧ sa = false then 2 else 0) +
           (if m = false then 1 else 0) + (if nf = false then 1 else 0)) := by
  decide

/-- C1: at a record with `pid = private` and `cgroup = private` (and no
other isolation), `generateEnterCommand` issues its one `unshare` with only
the mount and UTS flags; the PID and cgroup flags are accumulated into
`cloneFlags` only after the syscall and reach no unshare. -/
theorem enter_unshare_misses_pid_cgroup :
    generateEnterCommand cfgPidPriv false 4242 true true =
      Except.ok ⟨[LaunchEvent.unshare 67239936], ⟨true, true, false, 0, 0⟩,
        67239936, 637665280, none⟩
    ∧ 67239936 = CLONE_NEWNS ||| CLONE_NEWUTS
    ∧ 637665280 = CLONE_NEWNS ||| CLONE_NEWUTS ||| CLONE_NEWPID ||| CLONE_NEWCGROUP
    ∧ 637665280 &&& CLONE_NEWPID ≠ 0
    ∧ 637665280 &&& CLONE_NEWCGROUP ≠ 0
    ∧ 67239936 &&& CLONE_NEWPID = 0
    ∧ 67239936 &&& CLONE_NEWCGROUP = 0 :=
  ⟨rfl, by decide, by decide, by decide, by decide, by decide, by decide⟩

/-- C2: at a private-network record, the launch trace of `Start` invokes
slirp4netns first with the parent's own PID (4242), inside
`generateEnterCommand` and before the child is spawned; only the second
invocation, after the spawn, uses the PID that `GetPid` resolved for the
container (777). -/
theorem start_slirp_parent_pid_before_child :
    StartRun cfgNetPriv false 4242 true true true (some 777) true =
      Except.ok [LaunchEvent.netnsSetup "abc123",
        LaunchEvent.unshare (CLONE_NEWNS ||| CLONE_NEWUTS),
        LaunchEvent.netnsSetup "abc123",
        LaunchEvent.startSlirp 4242,
        LaunchEvent.spawnChild,
        LaunchEvent.queryPid "abc123",
        LaunchEvent.startSlirp 777] := rfl

/-- C8: with the agent absent under a plain rootfs, the injection path
creates a directory at `rootfs/<basename(agent-path)>` — which for agent
path `/pty` is the agent's own target path — so the agent write fails and
`Start` reports failure with a directory, not the agent file, at
`rootfs/pty`. -/
theorem start_inject_dir_at_agent_path :
    startInjectAgent "/ct/rootfs" true [("/ct/rootfs", FNode.dir 0o755)] =
      ([("/ct/rootfs/pty", FNode.dir 0o755), ("/ct/rootfs", FNode.dir 0o755)],
       false)
    ∧ pathJoin "/ct/rootfs" (pathBase PtyAgentPath) =
        pathJoin "/ct/rootfs" PtyAgentPath
    ∧ fsLookup [("/ct/rootfs/pty", FNode.dir 0o755),
        ("/ct/rootfs", FNode.dir 0o755)] "/ct/rootfs/pty" =
        some (FNode.dir 0o755) :=
  ⟨by decide, by decide, by decide⟩

/-- C9 counterexample: a corrupt record makes `Inspect` surface the load
error without spawning any CLI removal, while a missing record makes
`GetContainerInfo` spawn `rm` and — the removal succeeding — return neither
a record nor an error. -/
theorem inspect_corrupt_no_remove_counterexample :
    Inspect allDirs (fun _ => Except.error LoadErr.corrupt) ["c1"] =
      (Except.error LoadErr.corrupt, ([] : List String))
    ∧ GetContainerInfo "c1" (Except.error LoadErr.notFound) true false false
        "" true [] = ⟨none, false, ["rm c1"]⟩ :=
  ⟨rfl, rfl⟩

/-- C9: any load failure — missing or corrupt alike — makes
`GetContainerInfo` spawn the out-of-band `rm` and return no record, with an
error only when that removal itself fails, while `Inspect` surfaces any
load failure to the caller and never spawns a CLI command. -/
theorem load_failure_remove_vs_surface (c : String) (e : LoadErr)
    (rmOk running size : Bool) (du : String) (duOk : Bool)
    (filters : List (String × String)) (dirExists : String → Bool)
    (loads : String → Except LoadErr Config) (rest : List String)
    (h : loads (GetID dirExists c) = Except.error e) :
    GetContainerInfo c (Except.error e) rmOk running size du duOk filters =
      ⟨none, !rmOk, ["rm " ++ c]⟩
    ∧ (Inspect dirExists loads (c :: rest)).1 = Except.error e
    ∧ (Inspect dirExists loads (c :: rest)).2 = [] := by
  refine ⟨rfl, ?_, ?_⟩ <;> simp [Inspect, h]

/-- C9 witness: `load_failure_remove_vs_surface` at a corrupt single-entry
inspection. -/
theorem load_failure_remove_vs_surface_witness :
    ((fun _ => Except.error LoadErr.corrupt :
        String → Except LoadErr Config) (GetID allDirs "c1") =
      Except.error LoadErr.corrupt)
    ∧ (GetContainerInfo "c1" (Except.error LoadErr.corrupt) false false false
        "" true [] = ⟨none, true, ["rm c1"]⟩
       ∧ (Inspect allDirs (fun _ => Except.error LoadErr.corrupt) ["c1"]).1 =
           Except.error LoadErr.corrupt
       ∧ (Inspect allDirs (fun _ => Except.error LoadErr.corrupt) ["c1"]).2 =
           []) :=
  ⟨rfl, load_failure_remove_vs_surface "c1" LoadErr.corrupt false false false
    "" true [] allDirs (fun _ => Except.error LoadErr.corrupt) [] rfl⟩

/-- C10: whenever `generateEnterCommand` returns a command, its process
attributes are the unconditional `Setsid`, `Setpgid`, non-foreground,
UID 0 / GID 0 credential request — for every record, also when no user
namespace is created because `userns` is not keep-id or the rootful
override is set. -/
theorem enter_attr_unconditional (cfg : Config) (rootful : Bool)
    (parentPid : Nat) (netnsOk slirpOk : Bool) (c : EnterCmd)
    (h : generateEnterCommand cfg rootful parentPid netnsOk slirpOk =
      Except.ok c) :
    c.attr = ⟨true, true, false, 0, 0⟩ := by
  unfold generateEnterCommand at h
  repeat' split at h
  all_goals first
    | (cases h; rfl)
    | simp_all

/-- C10 witness: `enter_attr_unconditional` at the empty record (no user
namespace requested) under the rootful override. -/
theorem enter_attr_unconditional_witness :
    generateEnterCommand baseConfig true 1 true true =
      Except.ok ⟨[LaunchEvent.unshare 67239936], ⟨true, true, false, 0, 0⟩,
        67239936, 67239936, none⟩
    ∧ (⟨[LaunchEvent.unshare 67239936], ⟨true, true, false, 0, 0⟩,
        67239936, 67239936, none⟩ : EnterCmd).attr =
        ⟨true, true, false, 0, 0⟩ :=
  ⟨rfl, enter_attr_unconditional baseConfig true 1 true true _ rfl⟩
